import Mathlib

set_option autoImplicit false
set_option maxHeartbeats 1000000

/-!
Shallow embedding of `routeros/mikrotik_client.go` from the
`terraform-provider-routeros` repository.

Conventions:
  * Go byte strings that only ever carry text are modelled as `String`
    (`List Char`); byte buffers are modelled as `List Nat` with each
    element a byte value.
  * Go errors are modelled as their message `String`; fallible Go calls
    return `Except String α`.
  * `diag.Diagnostics` from the terraform-plugin-sdk is modelled as
    `List Diagnostic`.
  * External effects (the filesystem consulted for the CA certificate,
    the network dial and the bootstrap read issued by the version probe)
    are passed to `NewClient` as explicit parameters, so the control flow
    of the Go function can be followed for every possible outcome of
    those effects.
-/

deriving instance DecidableEq for Except

/-- Severity of a diagnostic (`diag.Severity` in terraform-plugin-sdk). -/
inductive Severity where
  | error
  | warning
deriving DecidableEq

/-- One structured diagnostic (`diag.Diagnostic`): severity, summary, detail. -/
structure Diagnostic where
  severity : Severity
  summary : String
  detail : String
deriving DecidableEq

/-- `diag.FromErr(err)`: one error diagnostic whose summary is the error message. -/
def diagFromErr (err : String) : List Diagnostic :=
  [⟨Severity.error, err, ""⟩]

/-- `diag.Errorf(...)`: one error diagnostic with the formatted message as summary. -/
def diagErrorf (msg : String) : List Diagnostic :=
  [⟨Severity.error, msg, ""⟩]

/-! ## `EscapeChars` (mikrotik_client.go lines 218-232) -/

/-- One digit of `hex.Encode`, which uses the table `"0123456789abcdef"`:
byte value `0..15` to the ASCII code of its lowercase hex digit. -/
def hexDigitByte (v : Nat) : Nat :=
  if v < 10 then 48 + v else 87 + v

/-- ASCII hex digit back to its value (inverse of `hexDigitByte` on digits). -/
def hexDigitVal (c : Nat) : Nat :=
  if 48 ≤ c ∧ c ≤ 57 then c - 48 else c - 87

/-- Transcription of `EscapeChars`: the Go loop appends the template
`\u0000` (bytes `92 117 48 48 48 48`) and then `hex.Encode` overwrites the
last two bytes with the lowercase hex encoding of the input byte, so the
net effect per byte `ch < 0x20` is the six bytes
`92, 117, 48, 48, hexDigitByte (ch / 16), hexDigitByte (ch % 16)`;
every other byte is appended unchanged. -/
def EscapeChars : List Nat → List Nat
  | [] => []
  | ch :: rest =>
    if ch < 0x20 then
      92 :: 117 :: 48 :: 48 :: hexDigitByte (ch / 16) :: hexDigitByte (ch % 16)
        :: EscapeChars rest
    else
      ch :: EscapeChars rest

/-! ## `URL`, `GetApiCmd`, `GetRestURL` (lines 194-215) -/

/-- The provider's `URL` value: logical path plus ordered query fragments. -/
structure URL where
  Path : String
  Query : List String
deriving DecidableEq

/-- `GetApiCmd`: the path token followed by the query tokens. -/
def GetApiCmd (u : URL) : List String :=
  u.Path :: u.Query

/-- Transcription of `GetRestURL`: join the query fragments with `&` and
prepend `?` exactly when the joined string is non-empty and does not already
start with `?` (`strings.Join` is `String.intercalate`; Go's `q[0]` byte test
agrees with `String.front` because `?` is ASCII). -/
def GetRestURL (u : URL) : String :=
  let q := String.intercalate "&" u.Query
  let q2 := if 0 < q.length ∧ q.front ≠ '?' then "?" ++ q else q
  u.Path ++ q2

/-! ## Path normalization (line 91): `strings.TrimSuffix(routerUrl.Path, "/")` -/

/-- Go `strings.HasSuffix`. -/
def goHasSuffix (s suffix : String) : Bool :=
  suffix.data.isSuffixOf s.data

/-- Go `strings.TrimSuffix`: drops ONE copy of the suffix when present
(`s[:len(s)-len(suffix)]`), otherwise returns `s` unchanged. -/
def goTrimSuffix (s suffix : String) : String :=
  if goHasSuffix s suffix then
    String.mk (s.data.take (s.data.length - suffix.data.length))
  else s

/-- The path normalization step of `NewClient`. -/
def normalizePath (p : String) : String :=
  goTrimSuffix p "/"

/-! ## Version extraction (lines 234-259) -/

/-- Split off the maximal leading run of ASCII digits. -/
def takeDigits (l : List Char) : List Char × List Char :=
  (l.takeWhile Char.isDigit, l.dropWhile Char.isDigit)

/-- The anchored Go regular expression `^(\d+\.){1,2}\d+` as a function
returning the matched leading substring (Go `regexp.FindString` after a
successful `MatchString`; with the `^` anchor both look only at a leading
match, and the greedy `{1,2}` repetition takes a second `\d+\.` group
exactly when a third digit group follows, which is what backtracking on
this pattern produces). -/
def versionNumMatch (l : List Char) : Option (List Char) :=
  match takeDigits l with
  | ([], _) => none
  | (d1, '.' :: r2) =>
    match takeDigits r2 with
    | ([], _) => none
    | (d2, '.' :: r4) =>
      match takeDigits r4 with
      | ([], _) => some (d1 ++ '.' :: d2)
      | (d3, _) => some (d1 ++ '.' :: d2 ++ '.' :: d3)
    | (d2, _) => some (d1 ++ '.' :: d2)
  | _ => none

/-- `MikrotikItem` is `map[string]string`; modelled as an association list. -/
abbrev MikrotikItem := List (String × String)

/-- Transcription of `GetRouterOSVersion`. The bootstrap read
`ReadItems(nil, "/system/resource", …)` lives in another file of the
repository; its outcome is taken here as the argument `readRes`
(error message, or the list of returned items). -/
def GetRouterOSVersion (readRes : Except String (List MikrotikItem)) :
    Except (List Diagnostic) String :=
  match readRes with
  | .error err => .error (diagFromErr err)
  | .ok res =>
    match res with
    | [] => .error (diagErrorf "RouterOS version not found")
    | item :: _ =>
      match List.lookup "version" item with
      | none => .error (diagErrorf "RouterOS version not found")
      | some version =>
        match versionNumMatch version.data with
        | none => .error (diagErrorf "RouterOS version not found")
        | some v => .ok (String.mk v)


/-! ## Model of Go `net/url.Parse` (consumed by `NewClient` lines 78-91)

`url.Parse` is the Go standard library, not repository code; it is modelled
here from its source (`net/url/url.go`), restricted to the fields the
provider reads (`Scheme`, `Host`, `Path`, `RawQuery`, `Opaque`, `OmitHost`).
IPv6 zone identifiers and the `ForceQuery` flag are not tracked: neither
changes which inputs parse successfully in a way the provider observes. -/

/-- Go `stringContainsCTLByte`: any byte below 0x20 or equal to 0x7f.
(Bytes of a multi-byte UTF-8 character are all at least 0x80, so the
byte-wise Go check agrees with this character-wise one.) -/
def containsCTLByte (s : String) : Bool :=
  s.data.any fun c => c.toNat < 0x20 || c.toNat == 0x7f

/-- ASCII letter test, as in Go `getScheme`. -/
def isASCIILetter (c : Char) : Bool :=
  (97 ≤ c.toNat && c.toNat ≤ 122) || (65 ≤ c.toNat && c.toNat ≤ 90)

/-- ASCII lowercasing (`strings.ToLower` restricted to the scheme characters
`getScheme` can produce, which are all ASCII). -/
def asciiLower (c : Char) : Char :=
  if 65 ≤ c.toNat ∧ c.toNat ≤ 90 then Char.ofNat (c.toNat + 32) else c

/-- Go `getScheme`: scan for `scheme:`; a digit, `+`, `-` or `.` first, or
any other character, means "no scheme"; a leading `:` is an error. `acc`
holds the scheme characters already scanned. -/
def getSchemeAux (raw : List Char) (acc : List Char) :
    List Char → Except String (List Char × List Char)
  | [] => .ok ([], raw)
  | c :: rest =>
    if isASCIILetter c then getSchemeAux raw (acc ++ [c]) rest
    else if c.isDigit || c == '+' || c == '-' || c == '.' then
      if acc = [] then .ok ([], raw) else getSchemeAux raw (acc ++ [c]) rest
    else if c = ':' then
      if acc = [] then .error "missing protocol scheme"
      else .ok (acc, rest)
    else .ok ([], raw)

/-- Entry point of `getScheme`: returns `(scheme, rest)`. -/
def getScheme (raw : List Char) : Except String (List Char × List Char) :=
  getSchemeAux raw [] raw

/-- Go `split(s, c, true)`: cut at the first occurrence of `c`; `none`
when `c` does not occur. -/
def splitOnce (s : List Char) (c : Char) : List Char × Option (List Char) :=
  let before := s.takeWhile (· ≠ c)
  match s.dropWhile (· ≠ c) with
  | [] => (s, none)
  | _ :: rest => (before, some rest)

/-- Split at the LAST occurrence of `c` (`strings.LastIndex`):
`(before, after)` with the separator dropped, `none` when absent. -/
def splitAtLast (s : List Char) (c : Char) : Option (List Char × List Char) :=
  match s.reverse.dropWhile (· ≠ c) with
  | [] => none
  | _ :: beforeRev => some (beforeRev.reverse, (s.reverse.takeWhile (· ≠ c)).reverse)

/-- Value of an ASCII hex digit (`ishex`/`unhex`). -/
def unhexDigit (c : Char) : Option Nat :=
  if 48 ≤ c.toNat ∧ c.toNat ≤ 57 then some (c.toNat - 48)
  else if 97 ≤ c.toNat ∧ c.toNat ≤ 102 then some (c.toNat - 87)
  else if 65 ≤ c.toNat ∧ c.toNat ≤ 70 then some (c.toNat - 55)
  else none

/-- `strconv.Quote` as used in `net/url` error messages, restricted to its
behaviour on printable input (the CTL-byte check has already excluded
control characters by the time these messages are built). -/
def goQuote (s : String) : String :=
  "\"" ++ s ++ "\""

/-- The encoding modes of `net/url` that the provider's inputs can reach. -/
inductive EncMode where
  | path
  | host
  | userPassword
  | fragment
deriving DecidableEq

/-- The characters Go `shouldEscape` additionally allows unescaped in a
host subcomponent. -/
def hostExtraAllowed (c : Char) : Bool :=
  (['!', '$', '&', Char.ofNat 39, '(', ')', '*', '+', ',', ';', '=',
    ':', '[', ']', '<', '>', '"']).contains c

/-- Go `shouldEscape(c, mode)` for the modes above. -/
def shouldEscape (c : Char) (mode : EncMode) : Bool :=
  if isASCIILetter c || c.isDigit then false
  else if mode = EncMode.host && hostExtraAllowed c then false
  else if (['-', '_', '.', '~']).contains c then false
  else if (['$', '&', '+', ',', '/', ':', ';', '=', '?', '@']).contains c then
    match mode with
    | .path => c = '?'
    | .userPassword => c = '@' || c = '/' || c = '?' || c = ':'
    | .fragment => false
    | .host => true
  else if mode = EncMode.fragment && (['!', '(', ')', '*']).contains c then false
  else true

/-- Go `unescape(s, mode)`: validate and decode `%`-escapes.  In host mode an
escape below `%80` other than `%25` is rejected, as is any unescaped
character that `shouldEscape` would escape; a malformed escape is an
`EscapeError` built from the offending (up to three character) token.
A decoded byte is represented as the character of its value. -/
def unescapeAux (mode : EncMode) : List Char → Except String (List Char)
  | [] => .ok []
  | '%' :: rest =>
    match rest with
    | a :: b :: rest2 =>
      match unhexDigit a, unhexDigit b with
      | some x, some y =>
        if mode = EncMode.host ∧ x < 8 ∧ ¬(a = '2' ∧ b = '5') then
          .error ("invalid character " ++ goQuote (String.mk ['%', a, b]) ++ " in host name")
        else
          match unescapeAux mode rest2 with
          | .error e => .error e
          | .ok tail => .ok (Char.ofNat (x * 16 + y) :: tail)
      | _, _ => .error ("invalid URL escape " ++ goQuote (String.mk ('%' :: List.take 2 rest)))
    | _ => .error ("invalid URL escape " ++ goQuote (String.mk ('%' :: List.take 2 rest)))
  | c :: rest =>
    if mode = EncMode.host ∧ c.toNat < 0x80 ∧ shouldEscape c mode then
      .error ("invalid character " ++ goQuote (String.mk [c]) ++ " in host name")
    else
      match unescapeAux mode rest with
      | .error e => .error e
      | .ok tail => .ok (c :: tail)

/-- Go `validOptionalPort`: empty, or `:` followed by (possibly zero) digits. -/
def validOptionalPort (p : List Char) : Bool :=
  match p with
  | [] => true
  | ':' :: rest => rest.all Char.isDigit
  | _ => false

/-- Go `parseHost`: validate the optional port (after the closing `]` for a
bracketed IPv6 literal, otherwise after the last `:`), then validate and
unescape the whole host in host mode. -/
def parseHost (host : List Char) : Except String (List Char) :=
  let portCheck : Except String Unit :=
    match host with
    | '[' :: _ =>
      match splitAtLast host ']' with
      | none => .error "missing ']' in host"
      | some (_, colonPort) =>
        if validOptionalPort colonPort then .ok ()
        else .error ("invalid port " ++ goQuote (String.mk colonPort) ++ " after host")
    | _ =>
      match splitAtLast host ':' with
      | none => .ok ()
      | some (_, after) =>
        if validOptionalPort (':' :: after) then .ok ()
        else .error ("invalid port " ++ goQuote (String.mk (':' :: after)) ++ " after host")
  match portCheck with
  | .error e => .error e
  | .ok _ => unescapeAux EncMode.host host

/-- Go `validUserinfo`. -/
def validUserinfo (s : List Char) : Bool :=
  s.all fun r =>
    isASCIILetter r || r.isDigit ||
      (['-', '.', '_', ':', '~', '!', '$', '&', Char.ofNat 39, '(', ')', '*',
        '+', ',', ';', '=', '%', '@']).contains r

/-- Go `parseAuthority`: host is everything after the last `@`; the
userinfo before it must be valid and unescape cleanly (the decoded user
name and password themselves are not tracked). -/
def parseAuthority (authority : List Char) : Except String (List Char) :=
  match splitAtLast authority '@' with
  | none => parseHost authority
  | some (userinfo, hostPart) =>
    match parseHost hostPart with
    | .error e => .error e
    | .ok host =>
      if ¬ validUserinfo userinfo then .error "net/url: invalid userinfo"
      else
        let p := splitOnce userinfo ':'
        match unescapeAux EncMode.userPassword p.1 with
        | .error e => .error e
        | .ok _ =>
          match p.2 with
          | none => .ok host
          | some pass =>
            match unescapeAux EncMode.userPassword pass with
            | .error e => .error e
            | .ok _ => .ok host

/-- The fields of Go `url.URL` that the provider reads. `host` carries the
port when present, exactly as Go's `URL.Host` does. -/
structure GoURL where
  scheme : String
  opaquePart : String
  host : String
  path : String
  rawQuery : String
  omitHost : Bool
deriving DecidableEq

/-- Go `parse(rawURL, viaRequest=false)`, the body of `url.Parse` after the
fragment has been cut off.  `url.Path` is stored decoded, as in Go
(`setPath` unescapes and can fail on a malformed escape). -/
def goURLParseInner (rawURL : String) : Except String GoURL :=
  if containsCTLByte rawURL then
    .error "net/url: invalid control character in URL"
  else if rawURL = "*" then
    .ok { scheme := "", opaquePart := "", host := "", path := "*",
          rawQuery := "", omitHost := false }
  else
    match getScheme rawURL.data with
    | .error e => .error e
    | .ok (schemeL, rest0) =>
      let scheme := String.mk (schemeL.map asciiLower)
      -- Query split.  Go treats a single trailing "?" as ForceQuery with the
      -- same remaining string and an empty RawQuery, which coincides with the
      -- plain first-"?" cut modelled here (only the untracked flag differs).
      let qp := splitOnce rest0 '?'
      let rest := qp.1
      let rawQuery := match qp.2 with | none => "" | some q => String.mk q
      if rest.head? ≠ some '/' then
        if scheme ≠ "" then
          .ok { scheme, opaquePart := String.mk rest, host := "", path := "",
                rawQuery, omitHost := false }
        else if ((splitOnce rest '/').1).contains ':' then
          .error "first path segment in URL cannot contain colon"
        else
          match unescapeAux EncMode.path rest with
          | .error e => .error e
          | .ok path =>
            .ok { scheme, opaquePart := "", host := "", path := String.mk path,
                  rawQuery, omitHost := false }
      else
        match rest with
        | '/' :: '/' :: tail =>
          if scheme ≠ "" ∨ tail.head? ≠ some '/' then
            let authority := tail.takeWhile (· ≠ '/')
            let pathRest := tail.dropWhile (· ≠ '/')
            match parseAuthority authority with
            | .error e => .error e
            | .ok host =>
              match unescapeAux EncMode.path pathRest with
              | .error e => .error e
              | .ok path =>
                .ok { scheme, opaquePart := "", host := String.mk host,
                      path := String.mk path, rawQuery, omitHost := false }
          else
            -- "///..." with no scheme: no authority component.
            match unescapeAux EncMode.path rest with
            | .error e => .error e
            | .ok path =>
              .ok { scheme, opaquePart := "", host := "", path := String.mk path,
                    rawQuery, omitHost := false }
        | _ =>
          -- starts with a single '/': OmitHost when a scheme is present.
          match unescapeAux EncMode.path rest with
          | .error e => .error e
          | .ok path =>
            .ok { scheme, opaquePart := "", host := "", path := String.mk path,
                  rawQuery, omitHost := scheme ≠ "" }

/-- Go `url.Parse`: cut the fragment first, wrap an inner failure as
`&Error{"parse", u, err}` whose message is `parse "u": err`, and validate
the fragment's escapes (the fragment value itself is not tracked). -/
def goURLParse (rawURL : String) : Except String GoURL :=
  let fp := splitOnce rawURL.data '#'
  let u := String.mk fp.1
  match goURLParseInner u with
  | .error e => .error ("parse " ++ goQuote u ++ ": " ++ e)
  | .ok url =>
    match fp.2 with
    | none => .ok url
    | some frag =>
      if frag = [] then .ok url
      else
        match unescapeAux EncMode.fragment frag with
        | .error e => .error ("parse " ++ goQuote rawURL ++ ": " ++ e)
        | .ok _ => .ok url

/-- Strip one level of square brackets (`splitHostPort` does this after
cutting the port). -/
def stripBrackets (l : List Char) : List Char :=
  if l.head? = some '[' ∧ l.getLast? = some ']' then (l.drop 1).dropLast else l

/-- Go `splitHostPort` (used by `URL.Port()`): the part after the last `:`
is the port when `:`+digits is well formed, otherwise the port is empty. -/
def splitHostPort (hostPort : List Char) : List Char × List Char :=
  match splitAtLast hostPort ':' with
  | none => (stripBrackets hostPort, [])
  | some (before, after) =>
    if validOptionalPort (':' :: after) then (stripBrackets before, after)
    else (stripBrackets hostPort, [])

/-- Go `(*URL).Port()` as a function of `URL.Host`. -/
def urlPort (host : String) : String :=
  String.mk (splitHostPort host.data).2


/-! ## `NewClient` (lines 50-192) -/

/-- The fields of Go `tls.Config` that `NewClient` sets (`RootCAs` is the
PEM bytes handed to `x509.CertPool.AppendCertsFromPEM`; the PEM parsing
itself happens inside the standard library and silently skips malformed
blocks, so the pool is identified with the file contents that were
appended). -/
structure TLSConfig where
  insecureSkipVerify : Bool
  rootCAs : Option (List Nat)
deriving DecidableEq

/-- The provider's transport kinds (declared in another file of the
repository; only the two constants are referenced here). -/
inductive TransportType where
  | TransportREST
  | TransportAPI
deriving DecidableEq

/-- The schema fields `NewClient` reads from `*schema.ResourceData`. -/
structure ResourceData where
  insecure : Bool
  ca_certificate : String
  hosturl : String
  username : String
  password : String
  routeros_version : String
  rest_timeout : Nat
  suppress_syso_del_warn : Bool

/-- Outcomes of the file system calls `NewClient` makes for the CA
certificate (`os.Stat`, then `os.ReadFile`), as error message or value. -/
structure FileSystem where
  stat : String → Except String Unit
  readFile : String → Except String (List Nat)

/-- Outcomes of the network effects: `routeros.DialTLS`, `routeros.Dial`
(host, username, password), and the bootstrap read
`ReadItems(nil, "/system/resource", …)` issued by the version probe. -/
structure Network where
  dialTLS : String → String → String → TLSConfig → Except String Unit
  dial : String → String → String → Except String Unit
  readSystemResource : Except String (List MikrotikItem)

/-- The client value `NewClient` hands back: an `ApiClient` or a
`RestClient` with the fields the constructor fills in. -/
inductive ClientValue where
  | api (hostURL username password : String) (suppress : Bool)
  | rest (hostURL username password : String) (timeoutSec : Nat)
      (suppress : Bool) (tlsConf : TLSConfig)
deriving DecidableEq

/-- What a call of `NewClient` does: return diagnostics, panic, or return a
constructed client (together with the process-wide `RouterOSVersion`
value in effect at that point). -/
inductive Outcome where
  | diag (ds : List Diagnostic)
  | panics (msg : String)
  | client (c : ClientValue) (routerOSVersion : String)
deriving DecidableEq

/-- The mutual-exclusion message of lines 58-59. -/
def mutualExclusionMsg : String :=
  "You have selected mutually exclusive options: ca_certificate and insecure connection. Please check the ENV variables and TF files."

/-- Lines 52-76: build the `tls.Config`, failing on the mutually exclusive
options or on an unreadable CA file. -/
def tlsStage (d : ResourceData) (fs : FileSystem) :
    Except (List Diagnostic) TLSConfig :=
  let tlsConf : TLSConfig := { insecureSkipVerify := d.insecure, rootCAs := none }
  let caCertificate := d.ca_certificate
  if tlsConf.insecureSkipVerify ∧ caCertificate ≠ "" then
    .error (diagErrorf mutualExclusionMsg)
  else if caCertificate ≠ "" then
    match fs.stat caCertificate with
    | .error err => .error (diagFromErr err)
    | .ok _ =>
      match fs.readFile caCertificate with
      | .error err =>
        .error (diagErrorf ("Failed to read CA file '" ++ caCertificate ++ "', " ++ err))
      | .ok file => .ok { tlsConf with rootCAs := some file }
  else .ok tlsConf

/-- The diagnostics literal of lines 83-89. -/
def urlParseDiag (err hosturl : String) : List Diagnostic :=
  [⟨Severity.error, err, "Error while parsing the router URL: '" ++ hosturl ++ "'"⟩]

/-- Lines 78-91: parse the endpoint, retrying with an `https://` prefix when
the first parse fails or yields an empty host; fail only when the last
attempted parse fails; then strip one trailing `/` from the path. -/
def urlStage (hosturl : String) : Except (List Diagnostic) GoURL :=
  let parsed :=
    match goURLParse hosturl with
    | .error _ => goURLParse ("https://" ++ hosturl)
    | .ok u => if u.host = "" then goURLParse ("https://" ++ hosturl) else .ok u
  match parsed with
  | .error err => .error (urlParseDiag err hosturl)
  | .ok u => .ok { u with path := normalizePath u.path }

/-- Result of the scheme switch of lines 93-115. -/
inductive SwitchResult where
  | panics (msg : String)
  | done (u : GoURL) (useTLS : Bool) (transport : TransportType)
deriving DecidableEq

/-- Lines 93-115: decide transport and TLS from the scheme, defaulting the
port for the binary API schemes; any other scheme panics. -/
def schemeSwitch (routerUrl : GoURL) : SwitchResult :=
  if routerUrl.scheme = "http" then
    .done routerUrl true TransportType.TransportREST
  else if routerUrl.scheme = "https" then
    .done routerUrl true TransportType.TransportREST
  else if routerUrl.scheme = "apis" then
    let u := { routerUrl with scheme := "" }
    let u := if urlPort u.host = "" then { u with host := u.host ++ ":8729" } else u
    .done u true TransportType.TransportAPI
  else if routerUrl.scheme = "api" then
    let u := { routerUrl with scheme := "" }
    let u := if urlPort u.host = "" then { u with host := u.host ++ ":8728" } else u
    .done u false TransportType.TransportAPI
  else
    .panics ("[NewClient] wrong transport type: " ++ routerUrl.scheme)

/-- One `%XX` escape with Go's uppercase hex table. -/
def percentEscape (b : Nat) : List Char :=
  ['%',
   (if b / 16 < 10 then Char.ofNat (48 + b / 16) else Char.ofNat (55 + b / 16)),
   (if b % 16 < 10 then Char.ofNat (48 + b % 16) else Char.ofNat (55 + b % 16))]

/-- Go `escape(s, mode)`: percent-encode every byte `shouldEscape` rejects;
a non-ASCII character contributes the escapes of each of its UTF-8 bytes. -/
def escapeWith (mode : EncMode) (s : String) : String :=
  String.mk (s.data.flatMap fun c =>
    if c.toNat < 0x80 then
      if shouldEscape c mode then percentEscape c.toNat else [c]
    else
      (String.utf8EncodeChar c).flatMap fun b => percentEscape b.toNat)

/-- Go `(*URL).String()` restricted to the fields tracked in `GoURL`
(no user info, fragment or `ForceQuery`, none of which `NewClient`'s URL
can carry after `urlStage`). -/
def urlString (u : GoURL) : String :=
  let s := if u.scheme ≠ "" then u.scheme ++ ":" else ""
  let s :=
    if u.opaquePart ≠ "" then s ++ u.opaquePart
    else
      let s :=
        if u.scheme ≠ "" ∨ u.host ≠ "" then
          if u.omitHost ∧ u.host = "" then s
          else
            let s := if u.host ≠ "" ∨ u.path ≠ "" then s ++ "//" else s
            if u.host ≠ "" then s ++ escapeWith EncMode.host u.host else s
        else s
      let path := escapeWith EncMode.path u.path
      let s := if path ≠ "" ∧ path.front ≠ '/' ∧ u.host ≠ "" then s ++ "/" else s
      let s :=
        if s = "" ∧ ((splitOnce path.data '/').1).contains ':' then s ++ "./" else s
      s ++ path
  if u.rawQuery ≠ "" then s ++ "?" ++ u.rawQuery else s

/-- Transcription of `NewClient`.  The filesystem and the network are
explicit parameters; everything else follows the Go control flow:
TLS stage, URL stage, scheme switch, then construction of the API or REST
client, with the version probe run exactly when no version was supplied
in the configuration. -/
def NewClient (d : ResourceData) (fs : FileSystem) (net : Network) : Outcome :=
  match tlsStage d fs with
  | .error ds => .diag ds
  | .ok tlsConf =>
    match urlStage d.hosturl with
    | .error ds => .diag ds
    | .ok routerUrl =>
      match schemeSwitch routerUrl with
      | .panics msg => .panics msg
      | .done u useTLS transport =>
        let version := d.routeros_version
        match transport with
        | .TransportAPI =>
          let dialRes :=
            if useTLS then net.dialTLS u.host d.username d.password tlsConf
            else net.dial u.host d.username d.password
          match dialRes with
          | .error err => .diag (diagFromErr err)
          | .ok _ =>
            if version = "" then
              match GetRouterOSVersion net.readSystemResource with
              | .error ds => .diag ds
              | .ok ros =>
                .client (.api u.host d.username d.password d.suppress_syso_del_warn) ros
            else
              .client (.api u.host d.username d.password d.suppress_syso_del_warn) version
        | .TransportREST =>
          let restHost := urlString u
          if version = "" then
            match GetRouterOSVersion net.readSystemResource with
            | .error ds => .diag ds
            | .ok ros =>
              .client (.rest restHost d.username d.password d.rest_timeout
                d.suppress_syso_del_warn tlsConf) ros
          else
            .client (.rest restHost d.username d.password d.rest_timeout
              d.suppress_syso_del_warn tlsConf) version

/-- A non-empty group of ASCII digits. -/
def DigitGroup (g : List Char) : Prop :=
  g ≠ [] ∧ ∀ c ∈ g, c.isDigit = true

/-- The shape `X.Y` or `X.Y.Z` with non-empty digit groups. -/
def VersionShape (v : String) : Prop :=
  (∃ a b, DigitGroup a ∧ DigitGroup b ∧ v.data = a ++ '.' :: b) ∨
  (∃ a b c, DigitGroup a ∧ DigitGroup b ∧ DigitGroup c ∧
    v.data = a ++ '.' :: b ++ '.' :: c)

/-! ## Helper lemmas -/

theorem hexDigitByte_ge (v : Nat) : 0x20 ≤ hexDigitByte v := by
  unfold hexDigitByte; split <;> omega

theorem escapeChars_append (a b : List Nat) :
    EscapeChars (a ++ b) = EscapeChars a ++ EscapeChars b := by
  induction a with
  | nil => simp [EscapeChars]
  | cons ch rest ih =>
    by_cases h : ch < 0x20 <;> simp [EscapeChars, h, ih]

theorem escapeChars_of_printable (l : List Nat) (h : ∀ b ∈ l, 0x20 ≤ b) :
    EscapeChars l = l := by
  induction l with
  | nil => rfl
  | cons ch rest ih =>
    have h1 : ¬ ch < 0x20 := by
      have := h ch (List.mem_cons_self ch rest); omega
    simp [EscapeChars, h1, ih fun b hb => h b (List.mem_cons_of_mem ch hb)]

theorem escapeChars_length (l : List Nat) :
    (EscapeChars l).length = l.length + 5 * l.countP (fun b => decide (b < 0x20)) := by
  induction l with
  | nil => rfl
  | cons ch rest ih =>
    by_cases h : ch < 0x20 <;>
      simp [EscapeChars, h, ih, List.countP_cons] <;> omega

theorem escapeChars_output_printable (l : List Nat) :
    ∀ b ∈ EscapeChars l, 0x20 ≤ b := by
  induction l with
  | nil => simp [EscapeChars]
  | cons ch rest ih =>
    by_cases h : ch < 0x20
    · simp only [EscapeChars, if_pos h]
      intro b hb
      simp only [List.mem_cons] at hb
      rcases hb with rfl | rfl | rfl | rfl | rfl | rfl | hb
      · omega
      · omega
      · omega
      · omega
      · exact hexDigitByte_ge _
      · exact hexDigitByte_ge _
      · exact ih b hb
    · simp only [EscapeChars, if_neg h]
      intro b hb
      simp only [List.mem_cons] at hb
      rcases hb with rfl | hb
      · omega
      · exact ih b hb

/-! ## Claims about `EscapeChars` -/

/-- C5: every byte below `0x20` becomes the six bytes `\u00xy` with `xy`
the lowercase hex digits whose value is the original byte (witnessed by
decoding them back); every byte at or above `0x20` passes through
unchanged; the function distributes over concatenation (so bytes stay in
order); and an input of only printable bytes is returned verbatim. -/
theorem escapeChars_spec :
    (∀ b : Nat, b < 0x20 →
      EscapeChars [b] = [92, 117, 48, 48, hexDigitByte (b / 16), hexDigitByte (b % 16)] ∧
      (EscapeChars [b]).length = 6 ∧
      hexDigitVal (hexDigitByte (b / 16)) * 16 + hexDigitVal (hexDigitByte (b % 16)) = b) ∧
    (∀ b : Nat, 0x20 ≤ b → EscapeChars [b] = [b]) ∧
    (∀ d1 d2 : List Nat, EscapeChars (d1 ++ d2) = EscapeChars d1 ++ EscapeChars d2) ∧
    (∀ data : List Nat, (∀ b ∈ data, 0x20 ≤ b) →
      EscapeChars data = data ∧ (EscapeChars data).length = data.length) := by
  refine ⟨by decide, ?_, escapeChars_append, ?_⟩
  · intro b hb
    have h1 : ¬ b < 0x20 := by omega
    simp [EscapeChars, h1]
  · intro data h
    have := escapeChars_of_printable data h
    exact ⟨this, by rw [this]⟩

theorem escapeChars_spec_witness :
    EscapeChars [10] = [92, 117, 48, 48, 48, 97] ∧
    EscapeChars [65] = [65] ∧
    EscapeChars ([10] ++ [65]) = EscapeChars [10] ++ EscapeChars [65] ∧
    EscapeChars [65, 66, 67] = [65, 66, 67] := by
  refine ⟨?_, ?_, ?_, ?_⟩
  · have h := (escapeChars_spec.1 10 (by decide)).1
    simpa using h
  · exact escapeChars_spec.2.1 65 (by decide)
  · exact escapeChars_spec.2.2.1 [10] [65]
  · exact (escapeChars_spec.2.2.2 [65, 66, 67] (by decide)).1

/-- C10: the output of `EscapeChars` has exactly `n + 5*k` bytes where `k`
counts the input bytes below `0x20`; the output never contains a byte
below `0x20`; and therefore `EscapeChars` is the identity on its own
output. -/
theorem escapeChars_invariants :
    ∀ data : List Nat,
      (EscapeChars data).length
        = data.length + 5 * data.countP (fun b => decide (b < 0x20)) ∧
      (∀ b ∈ EscapeChars data, 0x20 ≤ b) ∧
      EscapeChars (EscapeChars data) = EscapeChars data := by
  intro data
  exact ⟨escapeChars_length data, escapeChars_output_printable data,
    escapeChars_of_printable _ (escapeChars_output_printable data)⟩

theorem escapeChars_invariants_witness :
    (EscapeChars [0, 31, 65]).length = 3 + 5 * 2 ∧
    (∀ b ∈ EscapeChars [0, 31, 65], 0x20 ≤ b) ∧
    EscapeChars (EscapeChars [0, 31, 65]) = EscapeChars [0, 31, 65] := by
  have h := escapeChars_invariants [0, 31, 65]
  exact ⟨by simpa using h.1, h.2.1, h.2.2⟩

/-! ## Claim about `GetRestURL` -/

/-- C8: the REST URL is the path followed by the `&`-joined query, with one
`?` inserted exactly when the joined query is non-empty and does not
already start with `?`. -/
theorem getRestURL_spec :
    ∀ (path : String) (query : List String),
      (String.intercalate "&" query = "" → GetRestURL ⟨path, query⟩ = path) ∧
      (String.intercalate "&" query ≠ "" →
        (String.intercalate "&" query).front ≠ '?' →
        GetRestURL ⟨path, query⟩ = path ++ "?" ++ String.intercalate "&" query) ∧
      (String.intercalate "&" query ≠ "" →
        (String.intercalate "&" query).front = '?' →
        GetRestURL ⟨path, query⟩ = path ++ String.intercalate "&" query) := by
  intro path query
  refine ⟨?_, ?_, ?_⟩
  · intro h
    simp [GetRestURL, h]
  · intro h1 h2
    have hlen : 0 < (String.intercalate "&" query).length := by
      cases hq : String.intercalate "&" query with
      | mk data =>
        cases data with
        | nil => exact absurd hq h1
        | cons a l => simp [String.length]
    simp [GetRestURL, hlen, h2, String.append_assoc]
  · intro h1 h2
    simp [GetRestURL, h2]

theorem getRestURL_spec_witness :
    GetRestURL ⟨"/ip/address", ["name=eth0"]⟩ = "/ip/address?name=eth0" ∧
    GetRestURL ⟨"/p", ["?a", "b"]⟩ = "/p?a&b" ∧
    GetRestURL ⟨"/p", []⟩ = "/p" := by
  refine ⟨?_, ?_, ?_⟩
  · have h := (getRestURL_spec "/ip/address" ["name=eth0"]).2.1 (by decide) (by decide)
    simpa using h
  · have h := (getRestURL_spec "/p" ["?a", "b"]).2.2 (by decide) (by decide)
    simpa using h
  · exact (getRestURL_spec "/p" []).1 rfl

/-! ## Claim about path normalization -/

/-- C2 counterexample: the parsed path `/rest//` of the well-formed endpoint
`https://router.lan/rest//` is normalized to `/rest/`, which still ends in
a path separator — `strings.TrimSuffix` removes one trailing separator,
not all of them. -/
theorem normalizePath_counterexample :
    goURLParse "https://router.lan/rest//"
      = .ok ⟨"https", "", "router.lan", "/rest//", "", false⟩ ∧
    normalizePath "/rest//" = "/rest/" ∧
    goHasSuffix (normalizePath "/rest//") "/" = true ∧
    normalizePath (normalizePath "/rest//") ≠ normalizePath "/rest//" := by
  refine ⟨by decide, by decide, by decide, by decide⟩

/-- C2 amended: normalization removes exactly one trailing `/` when one is
present and is the identity otherwise: a path with no trailing separator
is unchanged, and a path of the form `l ++ "/"` is mapped to `l` (so only
the final separator is removed). -/
theorem normalizePath_amended :
    ∀ l : List Char,
      (l.getLast? ≠ some '/' → normalizePath (String.mk l) = String.mk l) ∧
      normalizePath (String.mk (l ++ ['/'])) = String.mk l := by
  intro l
  constructor
  · intro h
    have hsuf : goHasSuffix (String.mk l) "/" = false := by
      unfold goHasSuffix
      by_contra hc
      rw [Bool.not_eq_false, List.isSuffixOf_iff_suffix] at hc
      obtain ⟨t, ht⟩ := hc
      have ht2 : t ++ ['/'] = l := ht
      exact h (by rw [← ht2]; exact List.getLast?_concat t)
    unfold normalizePath goTrimSuffix
    simp [hsuf]
  · have hsuf : goHasSuffix (String.mk (l ++ ['/'])) "/" = true := by
      unfold goHasSuffix
      rw [List.isSuffixOf_iff_suffix]
      exact ⟨l, rfl⟩
    unfold normalizePath goTrimSuffix
    simp only [hsuf, if_pos]
    congr 1
    have hlen : (l ++ ['/']).length - (['/'] : List Char).length = l.length := by simp
    show List.take ((l ++ ['/']).length - (['/'] : List Char).length) (l ++ ['/']) = l
    rw [hlen]
    exact List.take_left l ['/']

theorem normalizePath_amended_witness :
    normalizePath "/ip/address" = "/ip/address" ∧
    normalizePath "/ip/address/" = "/ip/address" := by
  constructor
  · have h := (normalizePath_amended "/ip/address".data).1 (by decide)
    simpa using h
  · have h := (normalizePath_amended "/ip/address".data).2
    simpa using h

/-! ## Claims about `GetRouterOSVersion` -/

theorem takeDigits_group {x d r : List Char} (h : takeDigits x = (d, r))
    (hne : d ≠ []) : DigitGroup d := by
  have h1 : d = x.takeWhile Char.isDigit := by
    simp [takeDigits, Prod.ext_iff] at h
    exact h.1.symm
  refine ⟨hne, ?_⟩
  intro c hc
  rw [h1] at hc
  exact List.mem_takeWhile_imp hc

theorem versionNumMatch_shape {l w : List Char} (h : versionNumMatch l = some w) :
    (∃ a b, DigitGroup a ∧ DigitGroup b ∧ w = a ++ '.' :: b) ∨
    (∃ a b c, DigitGroup a ∧ DigitGroup b ∧ DigitGroup c ∧
      w = a ++ '.' :: b ++ '.' :: c) := by
  unfold versionNumMatch at h
  split at h
  · exact absurd h (by simp)
  · rename_i x1 d1 r2 hne1 heq1
    have hg1 : DigitGroup d1 := takeDigits_group heq1 (by intro he; exact hne1 he)
    split at h
    · exact absurd h (by simp)
    · rename_i x2 d2 r4 hne2 heq2
      have hg2 : DigitGroup d2 := takeDigits_group heq2 (by intro he; exact hne2 he)
      split at h
      · rename_i heq3
        left
        exact ⟨d1, d2, hg1, hg2, (Option.some.injEq _ _ ▸ h).symm⟩
      · rename_i x3 d3 r5 hne3 heq3
        have hg3 : DigitGroup d3 := takeDigits_group heq3 (by intro he; exact hne3 he)
        right
        exact ⟨d1, d2, d3, hg1, hg2, hg3, (Option.some.injEq _ _ ▸ h).symm⟩
    · rename_i x2 d2 snd2 hne2 hmiss heq2
      have hg2 : DigitGroup d2 := takeDigits_group heq2 (by intro he; exact hne2 he)
      left
      exact ⟨d1, d2, hg1, hg2, (Option.some.injEq _ _ ▸ h).symm⟩
  · exact absurd h (by simp)

/-- C6: the version probe extracts the leading `X.Y` or `X.Y.Z` token:
`"7.1 (stable)"` gives `"7.1"`, `"6.48.6 foo"` gives `"6.48.6"`, `"abc"`
and an empty result set give errors, and every successfully returned
version string has the shape `X.Y` or `X.Y.Z` with non-empty digit
groups. -/
theorem getRouterOSVersion_extraction :
    GetRouterOSVersion (.ok [[("version", "7.1 (stable)")]]) = .ok "7.1" ∧
    GetRouterOSVersion (.ok [[("version", "6.48.6 foo")]]) = .ok "6.48.6" ∧
    GetRouterOSVersion (.ok [[("version", "abc")]])
      = .error (diagErrorf "RouterOS version not found") ∧
    GetRouterOSVersion (.ok [])
      = .error (diagErrorf "RouterOS version not found") ∧
    (∀ (readRes : Except String (List MikrotikItem)) (v : String),
      GetRouterOSVersion readRes = .ok v → VersionShape v) := by
  refine ⟨rfl, rfl, rfl, rfl, ?_⟩
  intro readRes v h
  unfold GetRouterOSVersion at h
  split at h
  · exact absurd h (by simp)
  · split at h
    · exact absurd h (by simp)
    · split at h
      · exact absurd h (by simp)
      · split at h
        · exact absurd h (by simp)
        · rename_i version hver vv hmatch
          have hv : v = String.mk vv := by
            have := (Except.ok.injEq (ε := List Diagnostic) _ _ ▸ h)
            exact this.symm
          subst hv
          exact versionNumMatch_shape hmatch

theorem getRouterOSVersion_extraction_witness :
    GetRouterOSVersion (.ok [[("version", "7.10.2 (testing)")]]) = .ok "7.10.2" ∧
    VersionShape "7.10.2" :=
  ⟨rfl, getRouterOSVersion_extraction.2.2.2.2 (.ok [[("version", "7.10.2 (testing)")]])
    "7.10.2" rfl⟩

/-- C7 counterexample: three of the four failure modes — empty result set,
an item with no `version` field, and a `version` value not matching the
numeric shape — all produce the SAME diagnostic value
(`diag.Errorf("RouterOS version not found")`), so the failure modes are
not pairwise distinct. -/
theorem getRouterOSVersion_same_diag_counterexample :
    GetRouterOSVersion (.ok []) = GetRouterOSVersion (.ok [[("uptime", "1d")]]) ∧
    GetRouterOSVersion (.ok []) = GetRouterOSVersion (.ok [[("version", "abc")]]) ∧
    GetRouterOSVersion (.ok []) = .error (diagErrorf "RouterOS version not found") :=
  ⟨rfl, rfl, rfl⟩

/-- C7 amended: the transport-level failure propagates the read error as
its own diagnostic, while the other three failure modes (empty result set,
missing `version` field, version string not matching the numeric shape)
all yield the identical `RouterOS version not found` diagnostic. -/
theorem getRouterOSVersion_failure_diags :
    (∀ e : String, GetRouterOSVersion (.error e) = .error (diagFromErr e)) ∧
    GetRouterOSVersion (.ok []) = .error (diagErrorf "RouterOS version not found") ∧
    (∀ (item : MikrotikItem) (rest : List MikrotikItem),
      List.lookup "version" item = none →
      GetRouterOSVersion (.ok (item :: rest))
        = .error (diagErrorf "RouterOS version not found")) ∧
    (∀ (item : MikrotikItem) (rest : List MikrotikItem) (version : String),
      List.lookup "version" item = some version →
      versionNumMatch version.data = none →
      GetRouterOSVersion (.ok (item :: rest))
        = .error (diagErrorf "RouterOS version not found")) := by
  refine ⟨fun e => rfl, rfl, ?_, ?_⟩
  · intro item rest h
    simp [GetRouterOSVersion, h]
  · intro item rest version h1 h2
    simp [GetRouterOSVersion, h1, h2]

theorem getRouterOSVersion_failure_diags_witness :
    GetRouterOSVersion (.error "read: connection refused")
      = .error (diagFromErr "read: connection refused") ∧
    GetRouterOSVersion (.ok [[("uptime", "1d")]])
      = .error (diagErrorf "RouterOS version not found") ∧
    GetRouterOSVersion (.ok [[("version", "abc")]])
      = .error (diagErrorf "RouterOS version not found") :=
  ⟨getRouterOSVersion_failure_diags.1 "read: connection refused",
   getRouterOSVersion_failure_diags.2.2.1 [("uptime", "1d")] [] rfl,
   getRouterOSVersion_failure_diags.2.2.2 [("version", "abc")] [] "abc" rfl rfl⟩

/-! ## Claims about `NewClient` -/

theorem splitAtLast_append (l tail : List Char) (c : Char)
    (htail : ∀ x ∈ tail, x ≠ c) :
    splitAtLast (l ++ c :: tail) c = some (l, tail) := by
  unfold splitAtLast
  have hrev : (l ++ c :: tail).reverse = tail.reverse ++ c :: l.reverse := by
    rw [List.reverse_append, List.reverse_cons, List.append_assoc]
    rfl
  rw [hrev]
  have hallrev : ∀ x ∈ tail.reverse, (fun y => decide (y ≠ c)) x = true := by
    intro x hx
    simp only [decide_eq_true_eq]
    exact htail x (List.mem_reverse.mp hx)
  have hdrop : (tail.reverse ++ c :: l.reverse).dropWhile (fun y => decide (y ≠ c))
      = c :: l.reverse := by
    rw [List.dropWhile_append]
    have h0 : tail.reverse.dropWhile (fun y => decide (y ≠ c)) = [] :=
      List.dropWhile_eq_nil_iff.mpr hallrev
    simp [h0, List.dropWhile_cons]
    intro _ x hx
    exact htail x hx
  have htake : (tail.reverse ++ c :: l.reverse).takeWhile (fun y => decide (y ≠ c))
      = tail.reverse := by
    rw [List.takeWhile_append]
    have h1 : tail.reverse.takeWhile (fun y => decide (y ≠ c)) = tail.reverse :=
      List.takeWhile_eq_self_iff.mpr hallrev
    simp [h1, List.takeWhile_cons]
    intro _ x hx
    exact htail x hx
  rw [hdrop, htake]
  simp

theorem urlPort_append (host : String) (p : List Char)
    (hdig : ∀ x ∈ p, x.isDigit = true) (hnc : ∀ x ∈ p, x ≠ ':') :
    urlPort (host ++ String.mk (':' :: p)) = String.mk p := by
  unfold urlPort splitHostPort
  have hdata : (host ++ String.mk (':' :: p)).data = host.data ++ ':' :: p := rfl
  rw [hdata, splitAtLast_append host.data p ':' hnc]
  have hvp : validOptionalPort (':' :: p) = true := by
    unfold validOptionalPort
    exact List.all_eq_true.mpr hdig
  simp [hvp]

/-- C1: whenever `insecure` is set and the CA path is non-empty, `NewClient`
returns the mutual-exclusion diagnostic — for EVERY behaviour of the
filesystem and the network, so no file I/O on the CA path can influence
the result and no file-access error can surface. -/
theorem NewClient_mutual_exclusion (d : ResourceData) (fs : FileSystem)
    (net : Network) (hIns : d.insecure = true) (hCA : d.ca_certificate ≠ "") :
    NewClient d fs net = .diag (diagErrorf mutualExclusionMsg) := by
  have htls : tlsStage d fs = .error (diagErrorf mutualExclusionMsg) := by
    unfold tlsStage
    simp [hIns, hCA]
  simp [NewClient, htls]

theorem NewClient_mutual_exclusion_witness :
    NewClient ⟨true, "/does/not/exist.pem", "https://router.lan", "user", "pass", "", 30, false⟩
      ⟨fun ca => .error ("stat " ++ ca ++ ": no such file or directory"),
       fun ca => .error ("open " ++ ca ++ ": no such file or directory")⟩
      ⟨fun _ _ _ _ => .ok (), fun _ _ _ => .ok (), .ok []⟩
      = .diag (diagErrorf mutualExclusionMsg) :=
  NewClient_mutual_exclusion _ _ _ rfl (by decide)

/-- C9: an endpoint whose (successfully resolved) URL has a scheme other
than `http`, `https`, `api` or `apis` makes `NewClient` panic with the
`wrong transport type` message instead of returning a diagnostics value,
and no client value is ever constructed. -/
theorem NewClient_unsupported_scheme (d : ResourceData) (fs : FileSystem)
    (net : Network) (tc : TLSConfig) (u : GoURL)
    (htls : tlsStage d fs = .ok tc) (hurl : urlStage d.hosturl = .ok u)
    (h1 : u.scheme ≠ "http") (h2 : u.scheme ≠ "https")
    (h3 : u.scheme ≠ "api") (h4 : u.scheme ≠ "apis") :
    NewClient d fs net = .panics ("[NewClient] wrong transport type: " ++ u.scheme) ∧
    ∀ (c : ClientValue) (v : String), NewClient d fs net ≠ .client c v := by
  have hsw : schemeSwitch u
      = .panics ("[NewClient] wrong transport type: " ++ u.scheme) := by
    unfold schemeSwitch
    simp [h1, h2, h3, h4]
  have hmain : NewClient d fs net
      = .panics ("[NewClient] wrong transport type: " ++ u.scheme) := by
    simp [NewClient, htls, hurl, hsw]
  exact ⟨hmain, by intro c v; rw [hmain]; simp⟩

theorem NewClient_unsupported_scheme_witness :
    NewClient ⟨false, "", "ftp://r1.lan", "user", "pass", "7.1", 30, false⟩
      ⟨fun _ => .ok (), fun _ => .ok []⟩
      ⟨fun _ _ _ _ => .ok (), fun _ _ _ => .ok (), .ok []⟩
      = .panics "[NewClient] wrong transport type: ftp" := by
  have h := (NewClient_unsupported_scheme
    ⟨false, "", "ftp://r1.lan", "user", "pass", "7.1", 30, false⟩
    ⟨fun _ => .ok (), fun _ => .ok []⟩
    ⟨fun _ _ _ _ => .ok (), fun _ _ _ => .ok (), .ok []⟩
    ⟨false, none⟩ ⟨"ftp", "", "r1.lan", "", "", false⟩
    rfl (by decide) (by decide) (by decide) (by decide) (by decide)).1
  simpa using h

/-- C4: in the scheme switch of `NewClient`, scheme `apis` with no explicit
port resolves to port 8729 with TLS on, scheme `api` with no explicit port
resolves to port 8728 with TLS off (both on the binary API transport), and
a URL that already carries an explicit port keeps its host:port intact. -/
theorem schemeSwitch_ports :
    ∀ u : GoURL,
      (u.scheme = "apis" → urlPort u.host = "" →
        schemeSwitch u = .done { u with scheme := "", host := u.host ++ ":8729" }
          true TransportType.TransportAPI ∧
        urlPort (u.host ++ ":8729") = "8729") ∧
      (u.scheme = "api" → urlPort u.host = "" →
        schemeSwitch u = .done { u with scheme := "", host := u.host ++ ":8728" }
          false TransportType.TransportAPI ∧
        urlPort (u.host ++ ":8728") = "8728") ∧
      (u.scheme = "apis" → urlPort u.host ≠ "" →
        schemeSwitch u = .done { u with scheme := "" } true TransportType.TransportAPI) ∧
      (u.scheme = "api" → urlPort u.host ≠ "" →
        schemeSwitch u = .done { u with scheme := "" } false TransportType.TransportAPI) := by
  intro u
  refine ⟨?_, ?_, ?_, ?_⟩
  · intro hsch hport
    constructor
    · unfold schemeSwitch
      rw [hsch]
      simp [hport]
    · exact urlPort_append u.host ['8', '7', '2', '9'] (by decide) (by decide)
  · intro hsch hport
    constructor
    · unfold schemeSwitch
      rw [hsch]
      simp [hport]
    · exact urlPort_append u.host ['8', '7', '2', '8'] (by decide) (by decide)
  · intro hsch hport
    unfold schemeSwitch
    rw [hsch]
    simp [hport]
  · intro hsch hport
    unfold schemeSwitch
    rw [hsch]
    simp [hport]

theorem schemeSwitch_ports_witness :
    schemeSwitch ⟨"apis", "", "r1.lan", "", "", false⟩
      = .done ⟨"", "", "r1.lan:8729", "", "", false⟩ true TransportType.TransportAPI ∧
    urlPort "r1.lan:8729" = "8729" ∧
    schemeSwitch ⟨"api", "", "r1.lan", "", "", false⟩
      = .done ⟨"", "", "r1.lan:8728", "", "", false⟩ false TransportType.TransportAPI ∧
    schemeSwitch ⟨"apis", "", "r1.lan:9999", "", "", false⟩
      = .done ⟨"", "", "r1.lan:9999", "", "", false⟩ true TransportType.TransportAPI ∧
    schemeSwitch ⟨"api", "", "r1.lan:9999", "", "", false⟩
      = .done ⟨"", "", "r1.lan:9999", "", "", false⟩ false TransportType.TransportAPI := by
  refine ⟨?_, ?_, ?_, ?_, ?_⟩
  · have h := ((schemeSwitch_ports ⟨"apis", "", "r1.lan", "", "", false⟩).1
      rfl (by decide)).1
    simpa using h
  · have h := ((schemeSwitch_ports ⟨"apis", "", "r1.lan", "", "", false⟩).1
      rfl (by decide)).2
    simpa using h
  · have h := ((schemeSwitch_ports ⟨"api", "", "r1.lan", "", "", false⟩).2.1
      rfl (by decide)).1
    simpa using h
  · have h := (schemeSwitch_ports ⟨"apis", "", "r1.lan:9999", "", "", false⟩).2.2.1
      rfl (by decide)
    simpa using h
  · have h := (schemeSwitch_ports ⟨"api", "", "r1.lan:9999", "", "", false⟩).2.2.2
      rfl (by decide)
    simpa using h

/-- C3 counterexample: for the endpoint `""` (no scheme), re-parsing with
the `https://` prefix succeeds but yields an EMPTY host, yet `NewClient`
does not return a URL-parse diagnostic — it proceeds and constructs a REST
client. So resolution does not fail on every input whose prefixed re-parse
lacks a valid host; only a parse ERROR is rejected. -/
theorem urlStage_empty_host_counterexample :
    goURLParse "" = .ok ⟨"", "", "", "", "", false⟩ ∧
    goURLParse ("https://" ++ "") = .ok ⟨"https", "", "", "", "", false⟩ ∧
    urlStage "" = .ok ⟨"https", "", "", "", "", false⟩ ∧
    NewClient ⟨false, "", "", "user", "pass", "7.1", 30, false⟩
      ⟨fun _ => .ok (), fun _ => .ok []⟩
      ⟨fun _ _ _ _ => .ok (), fun _ _ _ => .ok (), .ok []⟩
      = .client (.rest "https:" "user" "pass" 30 false ⟨false, none⟩) "7.1" := by
  refine ⟨by decide, by decide, by decide, by decide⟩

/-- C3 amended: the first parse is retried with an `https://` prefix iff it
fails or yields an empty host; endpoint resolution fails iff the LAST
attempted parse returns an error (an empty host after a successful
re-parse is accepted), and the failure diagnostic's detail carries the
offending input string; a URL-stage failure is returned by `NewClient`
verbatim. -/
theorem urlStage_retry_spec :
    (∀ (s : String) (u : GoURL), goURLParse s = .ok u → u.host ≠ "" →
      urlStage s = .ok { u with path := normalizePath u.path }) ∧
    (∀ (s : String) (u u2 : GoURL), goURLParse s = .ok u → u.host = "" →
      goURLParse ("https://" ++ s) = .ok u2 →
      urlStage s = .ok { u2 with path := normalizePath u2.path }) ∧
    (∀ (s e : String) (u2 : GoURL), goURLParse s = .error e →
      goURLParse ("https://" ++ s) = .ok u2 →
      urlStage s = .ok { u2 with path := normalizePath u2.path }) ∧
    (∀ (s : String) (u : GoURL) (e2 : String), goURLParse s = .ok u → u.host = "" →
      goURLParse ("https://" ++ s) = .error e2 →
      urlStage s = .error (urlParseDiag e2 s)) ∧
    (∀ s e e2 : String, goURLParse s = .error e →
      goURLParse ("https://" ++ s) = .error e2 →
      urlStage s = .error (urlParseDiag e2 s)) ∧
    (∀ (d : ResourceData) (fs : FileSystem) (net : Network) (tc : TLSConfig)
      (ds : List Diagnostic), tlsStage d fs = .ok tc →
      urlStage d.hosturl = .error ds → NewClient d fs net = .diag ds) := by
  refine ⟨?_, ?_, ?_, ?_, ?_, ?_⟩
  · intro s u h1 h2
    simp [urlStage, h1, h2]
  · intro s u u2 h1 h2 h3
    simp [urlStage, h1, h2, h3]
  · intro s e u2 h1 h2
    simp [urlStage, h1, h2]
  · intro s u e2 h1 h2 h3
    simp [urlStage, h1, h2, h3]
  · intro s e e2 h1 h2
    simp [urlStage, h1, h2]
  · intro d fs net tc ds h1 h2
    simp [NewClient, h1, h2]

theorem urlStage_retry_spec_witness :
    urlStage "apis://r1.lan" = .ok ⟨"apis", "", "r1.lan", "", "", false⟩ ∧
    urlStage "router.lan" = .ok ⟨"https", "", "router.lan", "", "", false⟩ ∧
    urlStage "%" = .error
      (urlParseDiag "parse \"https://%\": invalid URL escape \"%\"" "%") := by
  refine ⟨?_, ?_, ?_⟩
  · have h := urlStage_retry_spec.1 "apis://r1.lan"
      ⟨"apis", "", "r1.lan", "", "", false⟩ (by decide) (by decide)
    rw [h]
    decide
  · have h := urlStage_retry_spec.2.1 "router.lan"
      ⟨"", "", "", "router.lan", "", false⟩
      ⟨"https", "", "router.lan", "", "", false⟩ (by decide) (by decide) (by decide)
    rw [h]
    decide
  · exact urlStage_retry_spec.2.2.2.2.1 "%" "parse \"%\": invalid URL escape \"%\""
      "parse \"https://%\": invalid URL escape \"%\"" (by decide) (by decide)
